import Mathlib

set_option autoImplicit false

/-!
Shallow embedding of the openScope flight-management-system core
(`Fms` from the repository source, together with the collaborators it
uses: `LegModel`, `ModeController`, `routeStringFormatHelper` and the
aircraft type definition).  The `Fms` class itself is translated method
by method from the source file; the collaborators, whose sources are not
part of the repository snapshot, are modelled from the specification and
carry a doc comment saying so.

JavaScript behaviour is made explicit:
- out-of-range array reads give `undefined`, modelled as `none`;
- a property access on `undefined` raises a `TypeError`, modelled as the
  `FmsError.typeError` value;
- mutating methods return the error raised (if any) together with the
  object state as mutated up to the point of the error, since in
  JavaScript mutations performed before a throw persist.
-/

namespace OpenScope

/-- Errors observable from the embedded operations.  `invalidInit` is the
`TypeError('Invalid aircraftInitProps passed to Fms')` thrown by the
constructor guard; `malformedRoute` is a route-string parse failure of
the route-string helper; `typeError` is any other JavaScript `TypeError`
(a property access on `undefined`). -/
inductive FmsError
  | invalidInit
  | malformedRoute
  | typeError
deriving DecidableEq

/-- A waypoint position; the embedded code only carries positions around,
so a pair of integers stands for the coordinate data. -/
abbrev Pos := Int × Int

/-- JavaScript array indexing with a (possibly negative) integer index:
out-of-range reads give `undefined`, modelled as `none`. -/
def jsIndex {α : Type} (xs : List α) (i : Int) : Option α :=
  if i < 0 then none else xs[i.toNat]?

/-- JavaScript `String.prototype.toLowerCase()` on the ASCII identifiers the
route data uses: lowercases each character. -/
def jsToLowerCase (s : String) : String :=
  String.mk (s.data.map Char.toLower)

/-- lodash `_findIndex(collection, matcher)`: the index of the first
element satisfying the matcher, or `-1` when no element does. -/
def findIndexJs {α : Type} (p : α → Bool) : List α → Int
  | [] => -1
  | x :: rest =>
    if p x then 0
    else if findIndexJs p rest = -1 then -1 else findIndexJs p rest + 1

/-- Modelled from the spec: `WaypointModel` (a `WaypointEntry`), whose
source is not under src/ — a navigation fix with a lowercase `name`, a
`position` (`none` when unresolved), altitude and speed restrictions
with sentinel `-1` meaning "none", and a hold flag. -/
structure Waypoint where
  name : String
  position : Option Pos
  altitudeRestriction : Int
  speedRestriction : Int
  isHold : Bool
deriving DecidableEq

/-- Modelled from the spec: `LegModel`, whose source is not under src/ —
an ordered sequence of waypoints with a 0-based cursor `currentIndex`,
plus the route-string segment the leg renders back to (`routeString` is
the segment the leg was built from, which the spec's round-trip property
says the leg reproduces when its procedures resolve). -/
structure Leg where
  waypointCollection : List Waypoint
  currentIndex : Int
  routeString : String
deriving DecidableEq

namespace Leg

/-- Modelled from the spec: `LegModel.hasNextWaypoint()` — true iff
`currentIndex + 1` is a valid index into `waypointCollection`. -/
def hasNextWaypoint (l : Leg) : Bool :=
  decide (0 ≤ l.currentIndex + 1 ∧
    l.currentIndex + 1 < (l.waypointCollection.length : Int))

/-- Modelled from the spec: `LegModel.currentWaypoint` — the entry at
`currentIndex`; `none` models the `undefined` of an out-of-range read. -/
def currentWaypoint (l : Leg) : Option Waypoint :=
  jsIndex l.waypointCollection l.currentIndex

/-- Modelled from the spec: `LegModel.nextWaypoint` — the entry at
`currentIndex + 1`; `none` models the `undefined` of an out-of-range
read (the accessor is only valid when `hasNextWaypoint()` is true). -/
def nextWaypoint (l : Leg) : Option Waypoint :=
  jsIndex l.waypointCollection (l.currentIndex + 1)

/-- Modelled from the spec: `LegModel.moveToNextWaypoint()` — advances
`currentIndex` by one. -/
def moveToNextWaypoint (l : Leg) : Leg :=
  { l with currentIndex := l.currentIndex + 1 }

/-- Modelled from the spec: `LegModel.skipToWaypointAtIndex(i)` — sets
`currentIndex = i` directly (the argument is an integer because
`Fms._findLegAndWaypointIndexForWaypointName` produces `-1` when no
waypoint matches). -/
def skipToWaypointAtIndex (l : Leg) (i : Int) : Leg :=
  { l with currentIndex := i }

end Leg

/-- Modelled from the spec: the altitude modes of the mode controller
(HOLD, VNAV, and others not detailed by the spec). -/
inductive AltitudeMode
  | hold
  | vnav
  | other
deriving DecidableEq

/-- Modelled from the spec: the heading modes of the mode controller
(HOLD, LNAV, and others not detailed by the spec). -/
inductive HeadingMode
  | hold
  | lnav
  | other
deriving DecidableEq

/-- Modelled from the spec: the speed modes of the mode controller
(HOLD, and others not detailed by the spec). -/
inductive SpeedMode
  | hold
  | other
deriving DecidableEq

/-- Modelled from the spec: `ModeController` (the MCP), whose source is
not under src/ — for each axis a mode and a held target value. -/
structure ModeController where
  altitudeMode : AltitudeMode
  altitude : Int
  headingMode : HeadingMode
  heading : Int
  speedMode : SpeedMode
  speed : Int
deriving DecidableEq

/-- The speed block of the aircraft type definition, as read by the
source (`AircraftModel.js` parses `min`, `max`, `landing`, `cruise`). -/
structure SpeedSpec where
  min : Int
  max : Int
  landing : Int
  cruise : Int
deriving DecidableEq

/-- The aircraft type definition fields the FMS reads: the service
`ceiling` and the `speed` block (see `AircraftModel.js`). -/
structure AircraftTypeDefinition where
  ceiling : Int
  speed : SpeedSpec
deriving DecidableEq

/-- The flight-management-system state: the ordered `legCollection`
(head = current leg), the mode controller, the aircraft type definition,
the current flight phase and the assigned runway name. -/
structure Fms where
  legCollection : List Leg
  modeController : ModeController
  aircraftTypeDefinition : AircraftTypeDefinition
  currentPhase : String
  runwayName : String
deriving DecidableEq

namespace Fms

/-- `get currentLeg()` — `this.legCollection[0]`; `none` models the
`undefined` read off an empty collection. -/
def currentLeg (f : Fms) : Option Leg :=
  f.legCollection[0]?

/-- `get currentWaypoint()` — `this.currentLeg.currentWaypoint`.  `none`
covers both an empty leg collection (where the JavaScript getter would
raise a `TypeError`) and an out-of-range cursor in the current leg; every
caller of this getter in the source immediately reads a property of the
result, so both cases surface as the same `TypeError` there. -/
def currentWaypoint (f : Fms) : Option Waypoint :=
  match f.currentLeg with
  | none => none
  | some l => l.currentWaypoint

/-- JavaScript `Array.prototype.join('..')` over the segment strings. -/
def joinRouteSegments : List String → String
  | [] => ""
  | [s] => s
  | s :: s2 :: rest => s ++ ".." ++ joinRouteSegments (s2 :: rest)

/-- `get currentRoute()` — maps each leg to its `routeString` and joins
the segments with the `".."` delimiter. -/
def currentRoute (f : Fms) : String :=
  joinRouteSegments (f.legCollection.map Leg.routeString)

/-- `Fms.getAltitude()` — starts from the aircraft type's service
ceiling, overrides it with the current waypoint's altitude restriction
when that is set (`≠ -1`), and overrides again with the MCP altitude when
the altitude mode is HOLD.  The `typeError` branch models the property
read `this.currentWaypoint.altitudeRestriction` crashing when there is no
current waypoint. -/
def getAltitude (f : Fms) : Except FmsError Int :=
  match f.currentWaypoint with
  | none => Except.error FmsError.typeError
  | some w =>
    let altitude := f.aircraftTypeDefinition.ceiling
    let altitude := if w.altitudeRestriction ≠ -1 then w.altitudeRestriction else altitude
    let altitude :=
      if f.modeController.altitudeMode = AltitudeMode.hold then f.modeController.altitude
      else altitude
    Except.ok altitude

/-- `Fms.getHeading()` — the sentinel `-999` unless the heading mode is
HOLD, in which case the MCP heading is returned. -/
def getHeading (f : Fms) : Int :=
  if f.modeController.headingMode = HeadingMode.hold then f.modeController.heading
  else -999

/-- `Fms.getSpeed()` — starts from the aircraft type's cruise speed,
overrides it with the current waypoint's speed restriction when set, and
overrides again with the MCP speed when the speed mode is HOLD. -/
def getSpeed (f : Fms) : Except FmsError Int :=
  match f.currentWaypoint with
  | none => Except.error FmsError.typeError
  | some w =>
    let speed := f.aircraftTypeDefinition.speed.cruise
    let speed := if w.speedRestriction ≠ -1 then w.speedRestriction else speed
    let speed :=
      if f.modeController.speedMode = SpeedMode.hold then f.modeController.speed
      else speed
    Except.ok speed

/-- `Fms.hasNextWaypoint()` —
`this.currentLeg.hasNextWaypoint() || !_isNil(this.legCollection[1])`;
the `typeError` branch models the method call on an `undefined` current
leg when the collection is empty. -/
def hasNextWaypoint (f : Fms) : Except FmsError Bool :=
  match f.currentLeg with
  | none => Except.error FmsError.typeError
  | some l => Except.ok (l.hasNextWaypoint || (f.legCollection[1]?).isSome)

/-- `Fms._moveToNextLeg()` — destroys the current leg and shifts it off
the front of the collection (only ever called by `nextWaypoint` when a
current leg exists). -/
def moveToNextLeg (f : Fms) : Fms :=
  { f with legCollection := f.legCollection.tail }

/-- `Fms.nextWaypoint()` — when the current leg has no next waypoint the
current leg is dropped (`_moveToNextLeg`), and then the cursor of the
now-current leg is advanced (`_moveToNextWaypointInLeg`).  The result is
the error raised (if any) paired with the state as mutated up to that
point. -/
def nextWaypoint (f : Fms) : Option FmsError × Fms :=
  match f.currentLeg with
  | none => (some FmsError.typeError, f)
  | some l =>
    let f1 := if l.hasNextWaypoint then f else f.moveToNextLeg
    match f1.currentLeg with
    | none => (some FmsError.typeError, f1)
    | some l1 =>
      (none, { f1 with legCollection := l1.moveToNextWaypoint :: f1.legCollection.tail })

/-- Loop of `Fms._findLegAndWaypointIndexForWaypointName`: scans the legs
from position `legIndex` upward and returns the `(legIndex,
waypointIndex)` pair exactly as the JavaScript `for` loop leaves them —
on a hit, the hit's indices; with no hit, `legIndex` one past the end and
`waypointIndex = -1`. -/
def findLegAndWaypointIndexAux (nameLower : String) : Nat → List Leg → Nat × Int
  | legIndex, [] => (legIndex, -1)
  | legIndex, l :: rest =>
    let waypointIndex := findIndexJs (fun w => w.name == nameLower) l.waypointCollection
    if waypointIndex ≠ -1 then (legIndex, waypointIndex)
    else findLegAndWaypointIndexAux nameLower (legIndex + 1) rest

/-- `Fms._findLegAndWaypointIndexForWaypointName(waypointName)` — scans
`legCollection` in order for a waypoint whose `name` equals the
lowercased input name. -/
def findLegAndWaypointIndexForWaypointName (f : Fms) (waypointName : String) : Nat × Int :=
  findLegAndWaypointIndexAux (jsToLowerCase waypointName) 0 f.legCollection

/-- `Fms.skipToWaypoint(waypointName)` — looks up the leg and waypoint
indices for the name, drops `legIndex` legs from the front of the
collection (lodash `_drop`), then sets the new current leg's cursor with
`skipToWaypointAtIndex`.  The `typeError` branch models the method call
on an `undefined` current leg after every leg was dropped; the state is
returned as mutated up to the error. -/
def skipToWaypoint (f : Fms) (waypointName : String) : Option FmsError × Fms :=
  let found := f.findLegAndWaypointIndexForWaypointName waypointName
  let f1 : Fms := { f with legCollection := f.legCollection.drop found.1 }
  match f1.currentLeg with
  | none => (some FmsError.typeError, f1)
  | some l =>
    (none, { f1 with legCollection := l.skipToWaypointAtIndex found.2 :: f1.legCollection.tail })

/-- `Fms.getNextWaypointPosition()` — `null` (`none`) when
`hasNextWaypoint()` is false; otherwise the source first reads
`this.currentLeg.nextWaypoint.position` (a `TypeError` when the current
leg is exhausted, since `nextWaypoint` is then `undefined`) and only then
would replace the value by the next leg's current waypoint position when
the current leg has no next waypoint. -/
def getNextWaypointPosition (f : Fms) : Except FmsError (Option Pos) :=
  match f.hasNextWaypoint with
  | Except.error e => Except.error e
  | Except.ok false => Except.ok none
  | Except.ok true =>
    match f.currentLeg with
    | none => Except.error FmsError.typeError
    | some l =>
      match l.nextWaypoint with
      | none => Except.error FmsError.typeError
      | some w =>
        let waypointPosition := w.position
        if !l.hasNextWaypoint then
          match f.legCollection[1]? with
          | none => Except.error FmsError.typeError
          | some l2 =>
            match l2.currentWaypoint with
            | none => Except.error FmsError.typeError
            | some w2 => Except.ok w2.position
        else Except.ok waypointPosition

end Fms

/-- A JavaScript `aircraftInitProps` value: `none` models an absent or
non-object argument (lodash `_isObject` false), `some kvs` an object with
the given own properties (string keys and values). -/
abbrev InitProps := Option (List (String × String))

/-- Reads an own property of a modelled JavaScript object; `none` is
`undefined`. -/
def lookupProp (kvs : List (String × String)) (k : String) : Option String :=
  (kvs.find? (fun kv => kv.1 == k)).map Prod.snd

/-- Splits a character list on the two-character `".."` delimiter,
greedily from the left. -/
def splitSegs : List Char → List (List Char)
  | [] => [[]]
  | '.' :: '.' :: rest => [] :: splitSegs rest
  | c :: rest =>
    match splitSegs rest with
    | [] => [[c]]
    | s :: ss => (c :: s) :: ss

/-- Modelled from the spec: a well-formed route-string segment — nonempty
and with no leading or trailing dot (a bare fix name, a hold-fix marker,
or a dotted `entry.procedure.exit` expression). -/
def validSegment (seg : List Char) : Bool :=
  !seg.isEmpty && seg.head? != some '.' && seg.getLast? != some '.'

/-- Modelled from the spec: `routeStringFormatHelper(routeString)`, whose
source is not under src/ — splits a route string on the `".."` segment
delimiter into ordered route segments, failing with `malformedRoute` when
the string is empty or shows an unrecognized delimiter pattern (an empty
segment, or a segment with a leading or trailing dot). -/
def routeStringFormatHelper (route : String) : Except FmsError (List String) :=
  let segs := splitSegs route.data
  if route.isEmpty || !segs.all validSegment then Except.error FmsError.malformedRoute
  else Except.ok (segs.map (fun seg => String.mk seg))

/-- Modelled from the spec: the `LegModel` constructor, whose source is
not under src/ — a leg built from one route-string segment and its
context (runway, phase, navigation data) stores the segment as its
`routeString`, draws its waypoints from the navigation-data collaborator
(abstracted as a function of segment and context), and starts with its
cursor at 0. -/
def mkLeg (nav : String → String → String → List Waypoint)
    (routeSegment runway phase : String) : Leg :=
  { waypointCollection := nav routeSegment runway phase
    currentIndex := 0
    routeString := routeSegment }

/-- The `Fms` constructor together with `init` and
`_buildInitialLegCollection`: rejects a non-object or empty props object
with `invalidInit`; otherwise reads `category` (the phase) and `route`,
parses the route into segments and builds one leg per segment.  A missing
`route` property surfaces as a `typeError` (the route helper faulting on
`undefined`); the initial mode-controller state is a parameter, since the
spec does not detail the controller's initial modes. -/
def buildFms (nav : String → String → String → List Waypoint)
    (aircraftInitProps : InitProps) (initialRunwayAssignment : String)
    (typeDefinitionModel : AircraftTypeDefinition) (mc : ModeController) :
    Except FmsError Fms :=
  match aircraftInitProps with
  | none => Except.error FmsError.invalidInit
  | some kvs =>
    if kvs.isEmpty then Except.error FmsError.invalidInit
    else
      let phase := (lookupProp kvs "category").getD ""
      match lookupProp kvs "route" with
      | none => Except.error FmsError.typeError
      | some route =>
        match routeStringFormatHelper route with
        | Except.error e => Except.error e
        | Except.ok segs =>
          Except.ok
            { legCollection :=
                segs.map (fun seg => mkLeg nav seg initialRunwayAssignment phase)
              modeController := mc
              aircraftTypeDefinition := typeDefinitionModel
              currentPhase := phase
              runwayName := initialRunwayAssignment }

/-- `Fms.addLegToBeginning(routeString)` — builds a leg from a single
segment and pushes it onto the front of the collection. -/
def Fms.addLegToBeginning (nav : String → String → String → List Waypoint)
    (f : Fms) (routeString : String) : Fms :=
  { f with legCollection := mkLeg nav routeString f.runwayName f.currentPhase :: f.legCollection }

/-- Whether a leg contains a waypoint with the given (already lowercased)
name; used to state the skip-to-waypoint claims. -/
def legContainsName (nl : String) (l : Leg) : Bool :=
  l.waypointCollection.any (fun w => w.name == nl)

deriving instance DecidableEq for Except

/-! ### Example states used by witnesses and counterexamples -/

/-- An example navigation-data collaborator used by concrete states. -/
def navEx : String → String → String → List Waypoint := fun _ _ _ => []

/-- Example waypoint `cowby`, altitude restriction 11000. -/
def wpCowby : Waypoint :=
  { name := "cowby", position := some (5, 6), altitudeRestriction := 11000
    speedRestriction := -1, isHold := false }

/-- Example waypoint `bikkr`, no restrictions, position (1, 2). -/
def wpBikkr : Waypoint :=
  { name := "bikkr", position := some (1, 2), altitudeRestriction := -1
    speedRestriction := -1, isHold := false }

/-- Example waypoint `dag`, no restrictions, position (3, 4). -/
def wpDag : Waypoint :=
  { name := "dag", position := some (3, 4), altitudeRestriction := -1
    speedRestriction := -1, isHold := false }

/-- Example aircraft type definition: service ceiling 41000. -/
def tdEx : AircraftTypeDefinition :=
  { ceiling := 41000, speed := { min := 110, max := 530, landing := 140, cruise := 460 } }

/-- Example mode controller in altitude HOLD (9000) and heading HOLD (250). -/
def mcHoldEx : ModeController :=
  { altitudeMode := AltitudeMode.hold, altitude := 9000
    headingMode := HeadingMode.hold, heading := 250
    speedMode := SpeedMode.hold, speed := 200 }

/-- Example mode controller in altitude VNAV and heading LNAV. -/
def mcVnavEx : ModeController :=
  { altitudeMode := AltitudeMode.vnav, altitude := 9000
    headingMode := HeadingMode.lnav, heading := 250
    speedMode := SpeedMode.other, speed := 200 }

/-- Example single-waypoint leg over `cowby` (cursor at 0, hence exhausted). -/
def legCowby : Leg :=
  { waypointCollection := [wpCowby], currentIndex := 0, routeString := "cowby" }

/-- Example two-waypoint leg over `bikkr`, `dag` (cursor at 0). -/
def legBikkrDag : Leg :=
  { waypointCollection := [wpBikkr, wpDag], currentIndex := 0, routeString := "bikkr" }

/-- Example FMS in altitude/heading HOLD mode, current waypoint `cowby`. -/
def fmsHoldEx : Fms :=
  { legCollection := [legCowby, legBikkrDag], modeController := mcHoldEx
    aircraftTypeDefinition := tdEx, currentPhase := "arrival", runwayName := "25L" }

/-- Example FMS in VNAV/LNAV mode, current waypoint `cowby` (restriction 11000). -/
def fmsVnavEx : Fms :=
  { legCollection := [legCowby, legBikkrDag], modeController := mcVnavEx
    aircraftTypeDefinition := tdEx, currentPhase := "arrival", runwayName := "25L" }

/-- Example FMS in VNAV mode whose current waypoint `bikkr` has no altitude
restriction. -/
def fmsVnavFreeEx : Fms :=
  { legCollection := [legBikkrDag], modeController := mcVnavEx
    aircraftTypeDefinition := tdEx, currentPhase := "arrival", runwayName := "25L" }

/-- Example FMS at the very end of its route: a single exhausted leg. -/
def fmsEndEx : Fms :=
  { legCollection := [legCowby], modeController := mcVnavEx
    aircraftTypeDefinition := tdEx, currentPhase := "arrival", runwayName := "25L" }

/-- Example FMS used for the absent-name skip: no leg contains `zzzzz`. -/
def fmsSkipEx : Fms :=
  { legCollection := [legCowby, legBikkrDag], modeController := mcVnavEx
    aircraftTypeDefinition := tdEx, currentPhase := "arrival", runwayName := "25L" }

/-- Example FMS whose current leg is exhausted while a following leg exists. -/
def fmsPosEx : Fms :=
  { legCollection := [legCowby, legBikkrDag], modeController := mcVnavEx
    aircraftTypeDefinition := tdEx, currentPhase := "arrival", runwayName := "25L" }

/-- Example FMS for the leg-boundary advance: exhausted current leg, following
two-waypoint leg. -/
def fmsC10Ex : Fms :=
  { legCollection := [legCowby, legBikkrDag], modeController := mcVnavEx
    aircraftTypeDefinition := tdEx, currentPhase := "arrival", runwayName := "25L" }

/-! ### Helper lemmas -/

/-- A leg with no next waypoint has an undefined `nextWaypoint` accessor. -/
theorem Leg.nextWaypoint_eq_none (l : Leg) (h : l.hasNextWaypoint = false) :
    l.nextWaypoint = none := by
  unfold Leg.hasNextWaypoint at h
  unfold Leg.nextWaypoint jsIndex
  simp only [decide_eq_false_iff_not, not_and, not_lt] at h
  split
  · rfl
  · rename_i hneg
    apply List.getElem?_eq_none
    have := h (by omega)
    omega

/-- `findIndexJs` never returns an integer below `-1`. -/
theorem findIndexJs_nonneg_of_ne {α : Type} (p : α → Bool) (xs : List α)
    (h : findIndexJs p xs ≠ -1) : 0 ≤ findIndexJs p xs := by
  induction xs with
  | nil => simp [findIndexJs] at h
  | cons x rest ih =>
    simp only [findIndexJs] at h ⊢
    by_cases hx : p x
    · simp [hx]
    · simp only [hx, if_false] at h ⊢
      by_cases hr : findIndexJs p rest = -1
      · simp [hr] at h
      · have := ih hr
        simp only [hr, if_false]
        omega

/-- `findIndexJs` answers `-1` exactly when no element matches. -/
theorem findIndexJs_eq_neg_one_iff {α : Type} (p : α → Bool) (xs : List α) :
    findIndexJs p xs = -1 ↔ ∀ x ∈ xs, p x = false := by
  induction xs with
  | nil => simp [findIndexJs]
  | cons x rest ih =>
    simp only [findIndexJs, List.mem_cons]
    cases hx : p x with
    | true =>
      simp only [if_true]
      constructor
      · intro h; exact absurd h (by decide)
      · intro h; exact absurd (h x (Or.inl rfl)) (by simp [hx])
    | false =>
      simp only [Bool.false_eq_true, if_false]
      by_cases hr : findIndexJs p rest = -1
      · simp only [hr, if_true]
        constructor
        · intro _ y hy
          rcases hy with rfl | hy
          · exact hx
          · exact (ih.mp hr) y hy
        · intro _; trivial
      · have h0 := findIndexJs_nonneg_of_ne p rest hr
        simp only [hr, if_false]
        constructor
        · intro h; exfalso; omega
        · intro h; exfalso
          exact hr (ih.mpr fun y hy => h y (Or.inr hy))

/-- `findIndexJs` returns `i` when everything before position `i` fails the
matcher and the element at `i` satisfies it. -/
theorem findIndexJs_eq_of_first {α : Type} (p : α → Bool) (xs : List α) (i : Nat) (x : α)
    (hbefore : ∀ y ∈ xs.take i, p y = false) (hx : xs[i]? = some x) (hpx : p x = true) :
    findIndexJs p xs = (i : Int) := by
  induction xs generalizing i with
  | nil => simp at hx
  | cons a rest ih =>
    cases i with
    | zero =>
      simp only [List.getElem?_cons_zero, Option.some_inj] at hx
      subst hx
      simp [findIndexJs, hpx]
    | succ n =>
      have ha : p a = false := hbefore a (by simp [List.take_succ_cons])
      have hr := ih n (fun y hy => hbefore y (by simp [List.take_succ_cons, hy]))
        (by simpa using hx)
      simp only [findIndexJs, ha, Bool.false_eq_true, if_false, hr]
      have hne : ((n : Int)) ≠ -1 := by omega
      simp only [hne, if_false]
      omega

/-- A leg that does not contain the name makes the lodash search answer `-1`. -/
theorem findIndexJs_of_not_contains (nl : String) (l : Leg)
    (h : legContainsName nl l = false) :
    findIndexJs (fun w => w.name == nl) l.waypointCollection = -1 := by
  rw [findIndexJs_eq_neg_one_iff]
  intro w hw
  unfold legContainsName at h
  rw [List.any_eq_false] at h
  simpa using h w hw

/-- The search loop of `_findLegAndWaypointIndexForWaypointName` lands on the
first leg containing the name with the matched waypoint index. -/
theorem findLegAux_eq_of_first (nl : String) (legs : List Leg) (start li : Nat)
    (l : Leg) (wi : Int)
    (hb : ∀ l' ∈ legs.take li, legContainsName nl l' = false)
    (hl : legs[li]? = some l)
    (hf : findIndexJs (fun w => w.name == nl) l.waypointCollection = wi)
    (hwi : wi ≠ -1) :
    Fms.findLegAndWaypointIndexAux nl start legs = (start + li, wi) := by
  induction legs generalizing start li with
  | nil => simp at hl
  | cons a rest ih =>
    cases li with
    | zero =>
      simp only [List.getElem?_cons_zero, Option.some_inj] at hl
      subst hl
      simp [Fms.findLegAndWaypointIndexAux, hf, hwi]
    | succ n =>
      have ha : legContainsName nl a = false := hb a (by simp [List.take_succ_cons])
      have hfa := findIndexJs_of_not_contains nl a ha
      have hr := ih (start + 1) n (fun y hy => hb y (by simp [List.take_succ_cons, hy]))
        (by simpa using hl)
      simp only [Fms.findLegAndWaypointIndexAux, hfa, ne_eq, not_true_eq_false, if_false,
        not_false_eq_true, hr]
      exact congrArg (fun k => (k, wi)) (by omega)

/-! ### Claim theorems -/

/-- C3: with a current waypoint, `getAltitude()` returns the MCP's held altitude
when the altitude mode is HOLD (regardless of any restriction); otherwise the
waypoint's altitude restriction when set (≠ -1); otherwise the aircraft type's
service ceiling. -/
theorem getAltitude_precedence (f : Fms) (w : Waypoint)
    (hw : f.currentWaypoint = some w) :
    (f.modeController.altitudeMode = AltitudeMode.hold →
      f.getAltitude = Except.ok f.modeController.altitude) ∧
    (f.modeController.altitudeMode ≠ AltitudeMode.hold → w.altitudeRestriction ≠ -1 →
      f.getAltitude = Except.ok w.altitudeRestriction) ∧
    (f.modeController.altitudeMode ≠ AltitudeMode.hold → w.altitudeRestriction = -1 →
      f.getAltitude = Except.ok f.aircraftTypeDefinition.ceiling) := by
  refine ⟨fun h => ?_, fun h hr => ?_, fun h hr => ?_⟩
  · simp [Fms.getAltitude, hw, h]
  · simp [Fms.getAltitude, hw, h, hr]
  · simp [Fms.getAltitude, hw, h, hr]

/-- C3 witness: ceiling 41000, restriction 11000, MCP hold 9000 — HOLD mode
yields 9000, VNAV yields 11000, VNAV with no restriction yields 41000. -/
theorem getAltitude_precedence_witness :
    fmsHoldEx.getAltitude = Except.ok 9000 ∧
    fmsVnavEx.getAltitude = Except.ok 11000 ∧
    fmsVnavFreeEx.getAltitude = Except.ok 41000 :=
  ⟨(getAltitude_precedence fmsHoldEx wpCowby (by decide)).1 (by decide),
   (getAltitude_precedence fmsVnavEx wpCowby (by decide)).2.1 (by decide) (by decide),
   (getAltitude_precedence fmsVnavFreeEx wpBikkr (by decide)).2.2 (by decide) (by decide)⟩

/-- C7: `getHeading()` returns the sentinel -999 whenever the heading mode is not
HOLD (including LNAV), and exactly the mode controller's held heading when the
heading mode is HOLD. -/
theorem getHeading_sentinel_or_hold (f : Fms) :
    (f.modeController.headingMode ≠ HeadingMode.hold → f.getHeading = -999) ∧
    (f.modeController.headingMode = HeadingMode.hold →
      f.getHeading = f.modeController.heading) := by
  constructor <;> intro h <;> simp [Fms.getHeading, h]

/-- C7 witness: heading HOLD 250 yields 250; LNAV yields -999. -/
theorem getHeading_sentinel_or_hold_witness :
    fmsHoldEx.getHeading = 250 ∧ fmsVnavEx.getHeading = -999 :=
  ⟨(getHeading_sentinel_or_hold fmsHoldEx).2 (by decide),
   (getHeading_sentinel_or_hold fmsVnavEx).1 (by decide)⟩

/-- C6: with a non-empty leg collection, `hasNextWaypoint()` returns true exactly
when the current (head) leg has a next waypoint or a second leg exists. -/
theorem hasNextWaypoint_of_head (f : Fms) (l : Leg) (rest : List Leg)
    (h : f.legCollection = l :: rest) :
    f.hasNextWaypoint = Except.ok (l.hasNextWaypoint || !rest.isEmpty) := by
  simp only [Fms.hasNextWaypoint, Fms.currentLeg, h, List.getElem?_cons_zero]
  cases rest <;> simp

/-- C6 witness: exhausted single-waypoint current leg but a second leg present —
`hasNextWaypoint()` is true on the mere existence of the next leg. -/
theorem hasNextWaypoint_of_head_witness :
    fmsHoldEx.hasNextWaypoint =
      Except.ok (legCowby.hasNextWaypoint || !(([legBikkrDag] : List Leg).isEmpty)) ∧
    fmsHoldEx.hasNextWaypoint = Except.ok true ∧
    legCowby.hasNextWaypoint = false :=
  ⟨hasNextWaypoint_of_head fmsHoldEx legCowby [legBikkrDag] rfl, by decide, by decide⟩

/-- C2 (code bug at the end-of-route boundary): with a single exhausted leg,
`hasNextWaypoint()` is false, yet `nextWaypoint()` is not a no-op — it removes the
final leg (the collection becomes empty) and raises a `TypeError` advancing the
then-undefined current leg. -/
theorem nextWaypoint_end_of_route_not_noop :
    fmsEndEx.hasNextWaypoint = Except.ok false ∧
    fmsEndEx.nextWaypoint.1 = some FmsError.typeError ∧
    fmsEndEx.nextWaypoint.2.legCollection = [] ∧
    fmsEndEx.legCollection ≠ [] := by decide

/-- C1 (code bug): skipping to a name absent from every leg does not fail with a
waypoint-not-found error leaving the legs intact — the search yields a leg index
equal to the collection length, so every leg is discarded, and the call then
raises a `TypeError` on the undefined current leg. -/
theorem skipToWaypoint_absent_discards_legs :
    (∀ l ∈ fmsSkipEx.legCollection, legContainsName (jsToLowerCase "ZZZZZ") l = false) ∧
    (fmsSkipEx.skipToWaypoint "ZZZZZ").1 = some FmsError.typeError ∧
    (fmsSkipEx.skipToWaypoint "ZZZZZ").2.legCollection = [] ∧
    fmsSkipEx.legCollection ≠ [] := by decide

/-- C5 (code bug): with the current leg exhausted and a following leg present,
`hasNextWaypoint()` is true but `getNextWaypointPosition()` raises a `TypeError`
(the source reads `.position` of the undefined `currentLeg.nextWaypoint` before
its fallback branch) instead of returning the following leg's first waypoint
position. -/
theorem getNextWaypointPosition_exhausted_leg_crashes :
    fmsPosEx.hasNextWaypoint = Except.ok true ∧
    fmsPosEx.currentLeg.map Leg.hasNextWaypoint = some false ∧
    (fmsPosEx.legCollection[1]?.bind Leg.currentWaypoint).bind Waypoint.position =
      some (1, 2) ∧
    fmsPosEx.getNextWaypointPosition = Except.error FmsError.typeError := by decide

/-- Example FMS for the found-name skip: the target `dag` sits in the second
leg at waypoint index 1. -/
def fmsC4Ex : Fms :=
  { legCollection := [legCowby, legBikkrDag], modeController := mcVnavEx
    aircraftTypeDefinition := tdEx, currentPhase := "arrival", runwayName := "25L" }

/-- The route-string helper never reports the constructor's invalid-init
error. -/
theorem routeStringFormatHelper_ne_invalidInit (route : String) :
    routeStringFormatHelper route ≠ Except.error FmsError.invalidInit := by
  unfold routeStringFormatHelper
  by_cases hc : (route.isEmpty || !(splitSegs route.data).all validSegment) = true
  · simp [hc]
  · simp [hc]

/-- C9: construction fails with the invalid-init error exactly when the init
props value is absent (not an object) or an empty object; with a non-empty
object it never raises this error (though it may fail differently). -/
theorem buildFms_invalidInit_iff (nav : String → String → String → List Waypoint)
    (props : InitProps) (runway : String) (td : AircraftTypeDefinition)
    (mc : ModeController) :
    buildFms nav props runway td mc = Except.error FmsError.invalidInit ↔
      (props = none ∨ props = some []) := by
  cases props with
  | none => simp [buildFms]
  | some kvs =>
    cases kvs with
    | nil => simp [buildFms]
    | cons kv rest =>
      have hne : buildFms nav (some (kv :: rest)) runway td mc ≠
          Except.error FmsError.invalidInit := by
        simp only [buildFms, List.isEmpty_cons, Bool.false_eq_true, if_false]
        cases hlp : lookupProp (kv :: rest) "route" with
        | none => simp
        | some route =>
          simp only []
          cases hfmt : routeStringFormatHelper route with
          | error e =>
            simp only [ne_eq, Except.error.injEq]
            intro hcon
            exact routeStringFormatHelper_ne_invalidInit route (by rw [hfmt, hcon])
          | ok segs => simp
      constructor
      · intro h; exact absurd h hne
      · rintro (h | h) <;> simp at h

/-- C9 witness: an absent props value raises the invalid-init error, while a
non-empty object does not. -/
theorem buildFms_invalidInit_iff_witness :
    buildFms navEx none "25L" tdEx mcHoldEx = Except.error FmsError.invalidInit ∧
    buildFms navEx (some [("category", "arrival"), ("route", "cowby")]) "25L" tdEx mcHoldEx ≠
      Except.error FmsError.invalidInit :=
  ⟨(buildFms_invalidInit_iff navEx none "25L" tdEx mcHoldEx).mpr (Or.inl rfl),
   fun h => by
     have h2 := (buildFms_invalidInit_iff navEx
       (some [("category", "arrival"), ("route", "cowby")]) "25L" tdEx mcHoldEx).mp h
     simp at h2⟩

/-- C10 (amended): when the current leg is exhausted (no next waypoint) and a
following leg with cursor 0 exists, `nextWaypoint()` removes the exhausted leg
and then advances the new current leg's cursor, so the current waypoint becomes
that leg's entry at index 1 and its first waypoint (index 0) is never the
current waypoint after the call — while `getNextWaypointPosition()` beforehand
raises a `TypeError` rather than reporting that first waypoint's position. -/
theorem nextWaypoint_skips_first_waypoint_of_next_leg (f : Fms) (l0 l1 : Leg)
    (rest : List Leg) (h : f.legCollection = l0 :: l1 :: rest)
    (h0 : l0.hasNextWaypoint = false) (h1 : l1.currentIndex = 0) :
    f.nextWaypoint.1 = none ∧
    f.nextWaypoint.2.legCollection = { l1 with currentIndex := 1 } :: rest ∧
    f.nextWaypoint.2.currentWaypoint = l1.waypointCollection[1]? ∧
    f.getNextWaypointPosition = Except.error FmsError.typeError := by
  obtain ⟨legs, mcx, tdx, phx, rwx⟩ := f
  simp only [] at h
  subst h
  have hnext := Leg.nextWaypoint_eq_none l0 h0
  refine ⟨?_, ?_, ?_, ?_⟩
  · simp [Fms.nextWaypoint, Fms.currentLeg, Fms.moveToNextLeg, h0]
  · simp [Fms.nextWaypoint, Fms.currentLeg, Fms.moveToNextLeg, Leg.moveToNextWaypoint, h0, h1]
  · simp [Fms.nextWaypoint, Fms.currentLeg, Fms.moveToNextLeg, Leg.moveToNextWaypoint,
      Fms.currentWaypoint, Leg.currentWaypoint, jsIndex, h0, h1]
  · simp [Fms.getNextWaypointPosition, Fms.hasNextWaypoint, Fms.currentLeg, h0, hnext]

/-- C10 counterexample: at a concrete state with an exhausted current leg and a
following leg whose first waypoint has position (1, 2), the claim as stated
fails — the advance behaviour holds, but `getNextWaypointPosition()` does not
report that first waypoint's position beforehand (it raises a `TypeError`). -/
theorem nextWaypoint_skip_claim_counterexample :
    ¬ (fmsC10Ex.nextWaypoint.1 = none ∧
       fmsC10Ex.nextWaypoint.2.currentWaypoint = legBikkrDag.waypointCollection[1]? ∧
       fmsC10Ex.getNextWaypointPosition = Except.ok (some (1, 2))) := by decide

/-- C10 witness: the amended behaviour at the concrete two-leg state. -/
theorem nextWaypoint_skips_first_waypoint_of_next_leg_witness :
    fmsC10Ex.nextWaypoint.1 = none ∧
    fmsC10Ex.nextWaypoint.2.legCollection = { legBikkrDag with currentIndex := 1 } :: [] ∧
    fmsC10Ex.nextWaypoint.2.currentWaypoint = legBikkrDag.waypointCollection[1]? ∧
    fmsC10Ex.getNextWaypointPosition = Except.error FmsError.typeError :=
  nextWaypoint_skips_first_waypoint_of_next_leg fmsC10Ex legCowby legBikkrDag []
    rfl (by decide) (by decide)

/-- C4: when some leg contains a waypoint named as the lowercased input (first
such leg at index `li`, first matching waypoint within it at index `wi`),
`skipToWaypoint` succeeds, removes exactly the legs strictly before leg `li`,
sets that leg's cursor to `wi`, and the current waypoint's name becomes the
lowercased input. -/
theorem skipToWaypoint_found (f : Fms) (nm : String) (li wi : Nat) (l : Leg)
    (w : Waypoint)
    (hbefore : ∀ l' ∈ f.legCollection.take li, legContainsName (jsToLowerCase nm) l' = false)
    (hleg : f.legCollection[li]? = some l)
    (hwbefore : ∀ w' ∈ l.waypointCollection.take wi, (w'.name == jsToLowerCase nm) = false)
    (hwp : l.waypointCollection[wi]? = some w)
    (hname : w.name = jsToLowerCase nm) :
    f.skipToWaypoint nm =
      (none, { f with legCollection :=
        { l with currentIndex := (wi : Int) } :: f.legCollection.drop (li + 1) }) ∧
    (f.skipToWaypoint nm).2.currentWaypoint.map Waypoint.name = some (jsToLowerCase nm) := by
  have hfi : findIndexJs (fun w' => w'.name == jsToLowerCase nm) l.waypointCollection =
      (wi : Int) :=
    findIndexJs_eq_of_first _ _ wi w hwbefore hwp (by simp [hname])
  have haux : f.findLegAndWaypointIndexForWaypointName nm = (li, (wi : Int)) := by
    have h2 := findLegAux_eq_of_first (jsToLowerCase nm) f.legCollection 0 li l (wi : Int)
      hbefore hleg hfi (by omega)
    simpa [Fms.findLegAndWaypointIndexForWaypointName] using h2
  have hlt : li < f.legCollection.length := by
    by_contra hge
    rw [List.getElem?_eq_none (by omega)] at hleg
    exact Option.noConfusion hleg
  have hdrop : f.legCollection.drop li = l :: f.legCollection.drop (li + 1) := by
    rw [List.drop_eq_getElem_cons hlt]
    rw [List.getElem?_eq_getElem hlt] at hleg
    rw [Option.some_inj.mp hleg]
  have hmain : f.skipToWaypoint nm = (none, { f with legCollection :=
      { l with currentIndex := (wi : Int) } :: f.legCollection.drop (li + 1) }) := by
    simp only [Fms.skipToWaypoint, haux, Fms.currentLeg, hdrop, List.getElem?_cons_zero,
      List.tail_cons]
    rfl
  refine ⟨hmain, ?_⟩
  rw [hmain]
  simp [Fms.currentWaypoint, Fms.currentLeg, Leg.currentWaypoint, jsIndex, hwp, hname]

/-- C4 witness: skipping to "DAG" on a two-leg route lands on the second leg
with its cursor at waypoint index 1, the first leg removed, and the current
waypoint named "dag". -/
theorem skipToWaypoint_found_witness :
    fmsC4Ex.skipToWaypoint "DAG" =
      (none, { fmsC4Ex with legCollection :=
        { legBikkrDag with currentIndex := ((1 : Nat) : Int) } ::
          fmsC4Ex.legCollection.drop (1 + 1) }) ∧
    (fmsC4Ex.skipToWaypoint "DAG").2.currentWaypoint.map Waypoint.name =
      some (jsToLowerCase "DAG") :=
  skipToWaypoint_found fmsC4Ex "DAG" 1 1 legBikkrDag wpDag
    (by decide) (by decide) (by decide) (by decide) (by decide)

/-- Character-level join of segments with the two-dot delimiter written out. -/
def charJoin : List (List Char) → List Char
  | [] => []
  | [s] => s
  | s :: s2 :: rest => s ++ '.' :: '.' :: charJoin (s2 :: rest)

/-- `splitSegs` always produces at least one segment. -/
theorem splitSegs_ne_nil (cs : List Char) : splitSegs cs ≠ [] := by
  induction cs using splitSegs.induct with
  | case1 => simp [splitSegs]
  | case2 rest ih => simp [splitSegs]
  | case3 c rest hne hnil ih => simp [splitSegs, hne, hnil]
  | case4 c rest hne s ss hcons ih => simp [splitSegs, hne, hcons]

/-- Prepending a character to the head segment prepends it to the join. -/
theorem charJoin_cons_cons (c : Char) (s : List Char) (ss : List (List Char)) :
    charJoin ((c :: s) :: ss) = c :: charJoin (s :: ss) := by
  cases ss <;> simp [charJoin]

/-- Splitting on `".."` and joining back is the identity on character lists. -/
theorem charJoin_splitSegs (cs : List Char) : charJoin (splitSegs cs) = cs := by
  induction cs using splitSegs.induct with
  | case1 => rfl
  | case2 rest ih =>
    obtain ⟨s, ss, hss⟩ : ∃ s ss, splitSegs rest = s :: ss := by
      cases h : splitSegs rest with
      | nil => exact absurd h (splitSegs_ne_nil rest)
      | cons s ss => exact ⟨s, ss, rfl⟩
    have h2 : splitSegs ('.' :: '.' :: rest) = [] :: splitSegs rest := rfl
    rw [h2, hss]
    show '.' :: '.' :: charJoin (s :: ss) = '.' :: '.' :: rest
    rw [← hss, ih]
  | case3 c rest hne hnil ih => exact absurd hnil (splitSegs_ne_nil rest)
  | case4 c rest hne s ss hcons ih =>
    have h2 : splitSegs (c :: rest) = (c :: s) :: ss := by
      simp [splitSegs, hne, hcons]
    rw [h2, charJoin_cons_cons, ← hcons, ih]

/-- `String.mk` turns list concatenation into string concatenation. -/
theorem mk_append_mk (a b : List Char) : String.mk a ++ String.mk b = String.mk (a ++ b) :=
  rfl

/-- `joinRouteSegments` over segments given as character lists. -/
theorem joinRouteSegments_map_mk (ss : List (List Char)) :
    Fms.joinRouteSegments (ss.map (fun s => String.mk s)) = String.mk (charJoin ss) := by
  induction ss with
  | nil => rfl
  | cons s rest ih =>
    cases rest with
    | nil => rfl
    | cons s2 rest2 =>
      simp only [List.map_cons] at ih ⊢
      rw [show Fms.joinRouteSegments
            (String.mk s :: String.mk s2 :: rest2.map (fun s => String.mk s)) =
          String.mk s ++ ".." ++ Fms.joinRouteSegments
            (String.mk s2 :: rest2.map (fun s => String.mk s)) from rfl]
      rw [ih]
      rw [show (".." : String) = String.mk ['.', '.'] from rfl]
      rw [mk_append_mk, mk_append_mk]
      rw [show charJoin (s :: s2 :: rest2) = s ++ '.' :: '.' :: charJoin (s2 :: rest2) from rfl]
      congr 1
      simp

/-- A successful run of the route-string helper yields segments that join back
to the original route string. -/
theorem joinRouteSegments_of_helper (route : String) (segs : List String)
    (h : routeStringFormatHelper route = Except.ok segs) :
    Fms.joinRouteSegments segs = route := by
  unfold routeStringFormatHelper at h
  by_cases hc : (route.isEmpty || !(splitSegs route.data).all validSegment) = true
  · simp [hc] at h
  · simp only [hc, Bool.false_eq_true, if_false, Except.ok.injEq] at h
    subst h
    rw [joinRouteSegments_map_mk, charJoin_splitSegs]

/-- C8: building an FMS from a props object whose route string parses into N
segments yields a leg collection of length N, and `currentRoute` reproduces the
original route string — the parse/format round trip. -/
theorem buildFms_roundTrip (nav : String → String → String → List Waypoint)
    (kvs : List (String × String)) (runway : String) (td : AircraftTypeDefinition)
    (mc : ModeController) (route : String) (segs : List String) (f : Fms)
    (hroute : lookupProp kvs "route" = some route)
    (hparse : routeStringFormatHelper route = Except.ok segs)
    (hbuild : buildFms nav (some kvs) runway td mc = Except.ok f) :
    f.legCollection.length = segs.length ∧ f.currentRoute = route := by
  cases kvs with
  | nil => simp [lookupProp] at hroute
  | cons kv rest =>
    simp only [buildFms, List.isEmpty_cons, Bool.false_eq_true, if_false, hroute] at hbuild
    rw [hparse] at hbuild
    simp only [Except.ok.injEq] at hbuild
    subst hbuild
    constructor
    · simp
    · show Fms.joinRouteSegments
        ((segs.map (fun seg => mkLeg nav seg runway _)).map Leg.routeString) = route
      rw [List.map_map]
      have hid : (Leg.routeString ∘ fun seg =>
          mkLeg nav seg runway ((lookupProp (kv :: rest) "category").getD "")) =
            fun seg => seg := by
        funext seg
        rfl
      rw [hid]
      rw [show segs.map (fun seg => seg) = segs from List.map_id segs]  -- adjust if needed
      exact joinRouteSegments_of_helper route segs hparse

/-- The FMS built from the spec's example route string. -/
def fmsBuiltEx : Fms :=
  { legCollection :=
      [mkLeg navEx "cowby" "25L" "arrival", mkLeg navEx "bikkr" "25L" "arrival",
       mkLeg navEx "dag.kepec3.klas" "25L" "arrival"]
    modeController := mcVnavEx, aircraftTypeDefinition := tdEx
    currentPhase := "arrival", runwayName := "25L" }

/-- C8 witness: the spec's three-segment example route round-trips through
construction. -/
theorem buildFms_roundTrip_witness :
    fmsBuiltEx.legCollection.length = 3 ∧
    fmsBuiltEx.currentRoute = "cowby..bikkr..dag.kepec3.klas" :=
  buildFms_roundTrip navEx
    [("category", "arrival"), ("route", "cowby..bikkr..dag.kepec3.klas")]
    "25L" tdEx mcVnavEx "cowby..bikkr..dag.kepec3.klas"
    ["cowby", "bikkr", "dag.kepec3.klas"] fmsBuiltEx
    (by decide) (by decide) (by decide)

end OpenScope
